import Mathlib

/-
Verification of the observable store engine in src/ReactObservableStore.js.

The engine is an in-memory, namespaced key-value store:
  * `storage` is a plain JS object mapping namespace names to values,
  * `observers` maps namespace names to objects of observer callbacks,
  * values pass through `sanitizeData` (a JSON stringify/parse round trip
    followed by a deep clone) before being stored,
  * `updateStore`/`setNested` mutate storage and then `fire` all observers
    of the affected namespace with that namespace's current value.

JS values are modelled by the inductive `JSVal`.  JS objects are modelled as
insertion-ordered association lists (JS objects preserve insertion order for
string keys and cannot contain duplicate keys).  Numbers are modelled as
integers plus the distinguished non-finite values `nan` and `infinity`
relevant to JSON sanitization; float rounding is irrelevant to the claims.
Observer callbacks are opaque to the store, so the first model (`Store`,
below) represents a registered callback by its observer id and represents
"the callback was invoked with payload v" by a notification event `(id, v)`
returned from the mutating operation.  The source generates observer ids as
'o_' + a random base-36 string; the model generates them from a fresh
counter, which models the practical uniqueness of the random ids.

A second model (`RStore`, further below) is used for re-entrant fire cycles,
where the aliasing of the mutable namespace object matters; there the
namespace values live in an explicit heap of cells.
-/

namespace ROStore

/-- A JavaScript value, as far as the store can observe it:  `null`,
`undefined`, the non-finite numbers `NaN` and `Infinity`, a bare function,
booleans, (finite) numbers, strings, arrays and plain objects.  Objects are
insertion-ordered association lists without duplicate keys. -/
inductive JSVal where
  | null
  | undefined
  | nan
  | infinity
  | fn
  | bool (b : Bool)
  | num (n : Int)
  | str (s : String)
  | arr (elems : List JSVal)
  | obj (entries : List (String × JSVal))

/-- JS truthiness: `undefined`, `null`, `false`, `0`, `NaN` and the empty
string are falsy; every object (also the empty one) and every other
primitive is truthy.  Used by the `!storage[namespace]` and `!data` checks
in the source. -/
def truthy : JSVal → Bool
  | .null => false
  | .undefined => false
  | .nan => false
  | .infinity => true
  | .fn => true
  | .bool b => b
  | .num n => n != 0
  | .str s => s != ""
  | .arr _ => true
  | .obj _ => true

mutual

/-- One JSON stringify/parse round trip on a value that does serialize:
`NaN` and `Infinity` become `null`, nested `undefined`/functions become
`null` inside arrays and are dropped inside objects (standard
`JSON.stringify` semantics); everything else is copied.  `lodash.clonedeep`
afterwards is the identity on the value level. -/
def sanVal : JSVal → JSVal
  | .null => .null
  | .undefined => .null
  | .nan => .null
  | .infinity => .null
  | .fn => .null
  | .bool b => .bool b
  | .num n => .num n
  | .str s => .str s
  | .arr xs => .arr (sanArr xs)
  | .obj kvs => .obj (sanObj kvs)

/-- Sanitize the elements of an array: `undefined` and functions serialize
to `null` in array position (handled inside `sanVal`). -/
def sanArr : List JSVal → List JSVal
  | [] => []
  | x :: xs => sanVal x :: sanArr xs

/-- Sanitize the entries of an object: keys whose value is `undefined` or a
function are dropped by `JSON.stringify`; the other values recurse. -/
def sanObj : List (String × JSVal) → List (String × JSVal)
  | [] => []
  | (k, v) :: kvs =>
    match v with
    | .undefined => sanObj kvs
    | .fn => sanObj kvs
    | v => (k, sanVal v) :: sanObj kvs

end

/-- `sanitizeData(data) = clone(JSON.parse(JSON.stringify(data)))`
(source lines 59-61).  `JSON.stringify` of a top-level `undefined` or bare
function yields no text, so `JSON.parse` then throws a SyntaxError: that is
the `none` case.  Otherwise the round trip normalizes the value. -/
def sanitizeData : JSVal → Option JSVal
  | .undefined => none
  | .fn => none
  | v => some (sanVal v)

/-- Property lookup on a JS object (association list): the first binding of
the key, if any. -/
def olookup {α : Type} : List (String × α) → String → Option α
  | [], _ => none
  | (k', v') :: t, k => if k' = k then some v' else olookup t k

/-- Property write on a JS object: overwriting an existing key keeps its
position (JS objects keep the original insertion position on overwrite);
a new key is appended at the end. -/
def oset {α : Type} : List (String × α) → String → α → List (String × α)
  | [], k, v => [(k, v)]
  | (k', v') :: t, k, v => if k' = k then (k, v) :: t else (k', v') :: oset t k v

/-- The own enumerable string-keyed properties of a value, as read by
`lodash.assign` from its source argument: an object contributes its
entries, an array its index properties (holes, modelled by `undefined`, are
absent properties and are skipped), a string its character index
properties; primitives have none. -/
def toEntries : JSVal → List (String × JSVal)
  | .obj kvs => kvs
  | .arr xs =>
    ((List.range xs.length).zip xs).filterMap fun p =>
      match p.2 with
      | .undefined => none
      | v => some (toString p.1, v)
  | .str s =>
    ((List.range s.data.length).zip s.data).map fun p =>
      (toString p.1, .str (String.mk [p.2]))
  | _ => []

/-- Copy a list of properties onto a target object, left to right, as
`lodash.assign` does. -/
def assignEntries (target : List (String × JSVal)) : List (String × JSVal) → List (String × JSVal)
  | [] => target
  | (k, v) :: rest => assignEntries (oset target k v) rest

/-- `lodash.assign(target, source)`: copy the own enumerable properties of
`source` onto `target` and return `target`.  An object target is mutated in
place; a primitive target is boxed (`Object(target)`) first, which we model
as a property bag of its own entries.  (An array target would keep its
array-ness in JS; no operation reachable from the spec's claims assigns
into an array target, and the store never produces one.) -/
def assignVal (target source : JSVal) : JSVal :=
  match target with
  | .obj kvs => .obj (assignEntries kvs (toEntries source))
  | t => .obj (assignEntries (toEntries t) (toEntries source))

/-- Split a key on `'.'`, as `key.split('.')` and lodash's path parsing do
for plain dot-paths: `""` gives `[""]`, and separators at the ends give
empty segments. -/
def splitAux (sep : Char) : List Char → List Char → List String
  | [], acc => [String.mk acc.reverse]
  | c :: cs, acc =>
    if c = sep then String.mk acc.reverse :: splitAux sep cs []
    else splitAux sep cs (c :: acc)

/-- `key.split('.')` (source lines 97 and 108). -/
def jsSplit (s : String) : List String := splitAux '.' s.data []

/-- lodash's `isIndex`: a canonical decimal numeral usable as an array
index (no leading zeros except `"0"` itself). -/
def isIndex (s : String) : Bool :=
  s.data ≠ [] && s.data.all (·.isDigit) && (s = "0" || s.front != '0')

/-- Numeric value of a decimal numeral segment. -/
def digitsToNat : List Char → Nat → Nat
  | [], acc => acc
  | c :: cs, acc => digitsToNat cs (acc * 10 + (c.toNat - '0'.toNat))

/-- Index denoted by an index-like path segment. -/
def toIdx (s : String) : Nat := digitsToNat s.data 0

/-- Is the value one for which `v === Object(v)` holds, i.e. object-like
(objects, arrays, functions)?  This is both lodash's `isObject` test used
while walking paths and the copy-on-read test in `getNested`. -/
def isObjectLike : JSVal → Bool
  | .obj _ => true
  | .arr _ => true
  | .fn => true
  | _ => false

/-- One step of property resolution while reading a path, as `lodash.get`
does: object lookup, array indexing for index-like segments, string
character indexing; anything else resolves to `undefined`. -/
def getKey : JSVal → String → JSVal
  | .obj kvs, k => (olookup kvs k).getD .undefined
  | .arr xs, k => if isIndex k then (xs.getD (toIdx k) .undefined) else .undefined
  | .str s, k =>
    if isIndex k then
      match s.data.get? (toIdx k) with
      | some c => .str (String.mk [c])
      | none => .undefined
    else .undefined
  | _, _ => .undefined

/-- Write a list element at an index, extending the list with holes
(`undefined`) as `array[i] = v` does beyond the current length. -/
def listSetPad (xs : List JSVal) (i : Nat) (v : JSVal) : List JSVal :=
  if i < xs.length then xs.set i v
  else xs ++ List.replicate (i - xs.length) .undefined ++ [v]

/-- Property assignment on an object-like value during `lodash.set`'s walk:
objects get the binding, arrays get the element when the segment is
index-like (a non-index property on an array is invisible to JSON and to
`lodash.get` on our value model, so it is dropped).  `lodash.set` only
assigns into object-like values, so the final case is unreachable from the
store's operations. -/
def setIn : JSVal → String → JSVal → JSVal
  | .obj kvs, k, v => .obj (oset kvs k v)
  | .arr xs, k, v => if isIndex k then .arr (listSetPad xs (toIdx k) v) else .arr xs
  | t, _, _ => t

/-- The recursive walk of `lodash.set` below the top level: at the last
segment assign; at an intermediate segment, descend into the existing
child when it is object-like, otherwise replace it by a fresh `[]`/`{}`
(an array when the next segment is index-like, an object otherwise). -/
def lodashSetVal : JSVal → List String → JSVal → JSVal
  | t, [], _ => t
  | t, [k], v => setIn t k v
  | t, k :: k2 :: rest, v =>
    let child := getKey t k
    let child := if isObjectLike child then child else if isIndex k2 then .arr [] else .obj []
    setIn t k (lodashSetVal child (k2 :: rest) v)

/-- `lodash.set(storage, path, v)` at the top level: the same walk starting
from the storage object.  Note that this creates a missing top-level key
(and replaces a non-object-like namespace value on deeper paths). -/
def lodashSetTop (storage : List (String × JSVal)) (segs : List String) (v : JSVal) :
    List (String × JSVal) :=
  match segs with
  | [] => storage
  | [k] => oset storage k v
  | k :: k2 :: rest =>
    let child := (olookup storage k).getD .undefined
    let child := if isObjectLike child then child else if isIndex k2 then .arr [] else .obj []
    oset storage k (lodashSetVal child (k2 :: rest) v)

/-- The walk of `lodash.get` below the top level: resolve one segment at a
time, yielding `undefined` wherever resolution fails. -/
def lodashGetVal : JSVal → List String → JSVal
  | v, [] => v
  | v, k :: rest => lodashGetVal (getKey v k) rest

/-- `lodash.get(storage, path)` without the default: the same walk starting
from the storage object. -/
def lodashGetTop (storage : List (String × JSVal)) : List String → JSVal
  | [] => .undefined
  | k :: rest => lodashGetVal ((olookup storage k).getD .undefined) rest

/-- The errors the engine can raise: `'Invalid namespace'` from
`updateStore`/`subscribe`, `'Invalid store initialization'` from `init`,
the SyntaxError of `JSON.parse(undefined)` inside `sanitizeData`, and the
TypeError of `Object.keys(undefined)` inside `fire` when a namespace has
no observer set. -/
inductive StoreError where
  | invalidNamespace
  | invalidInit
  | jsonParseError
  | typeError
deriving DecidableEq

/-- The private module state of the store: `storage` and `observers` (both
plain JS objects), the `showLog` flag, and the fresh-id counter modelling
`generateObserverId`.  An observer registration is represented by its id;
the callback itself is opaque to the engine. -/
structure Store where
  storage : List (String × JSVal)
  observers : List (String × List Nat)
  nextId : Nat
  showLog : Bool

/-- The state before any `init`: empty storage, empty registry. -/
def emptyStore : Store := ⟨[], [], 0, false⟩

/-- A notification event: observer `id` was invoked with payload `v`. -/
def Notif : Type := Nat × JSVal

/-- `fire(namespace, data)` (source lines 152-157): iterate the keys of
`observers[namespace]`, invoking each callback with `data`.  If
`observers[namespace]` is `undefined`, `Object.keys` throws a TypeError
before any callback runs.  The result lists the invocations `(id, data)`
in registration order. -/
def fire (st : Store) (ns : String) (data : JSVal) : Except StoreError (List Notif) :=
  match olookup st.observers ns with
  | none => .error .typeError
  | some ids => .ok (ids.map fun id => (id, data))

/-- `updateStore(namespace, data, merge)` (source lines 70-75): throw
`'Invalid namespace'` when `storage[namespace]` is falsy; otherwise store
`assign(merge ? storage[namespace] : {}, sanitizeData(data))` (the
sanitize error propagates before any mutation) and fire the namespace's
observers with the new namespace value.  The returned state is the state
at normal return or at the point the exception escapes. -/
def updateStore (st : Store) (ns : String) (data : JSVal) (merge : Bool) :
    Store × Except StoreError (List Notif) :=
  if truthy ((olookup st.storage ns).getD .undefined) = false then
    (st, .error .invalidNamespace)
  else
    match sanitizeData data with
    | none => (st, .error .jsonParseError)
    | some s =>
      let v := assignVal (if merge then (olookup st.storage ns).getD .undefined else .obj []) s
      let st := { st with storage := oset st.storage ns v }
      (st, fire st ns v)

/-- `init(data, log)` (source lines 83-89): set the logging flag, then
throw `'Invalid store initialization'` when `data` is falsy; otherwise
replace storage by `assign({}, sanitizeData(data))` and give every
namespace of the new storage a fresh empty observer set (observer sets of
namespaces not in the new data are left untouched). -/
def init (st : Store) (data : JSVal) (log : Bool) : Store × Except StoreError Unit :=
  let st := { st with showLog := log }
  if truthy data = false then (st, .error .invalidInit)
  else
    match sanitizeData data with
    | none => (st, .error .jsonParseError)
    | some s =>
      let storage := assignEntries [] (toEntries s)
      let observers := (storage.map Prod.fst).foldl (fun obs ns => oset obs ns []) st.observers
      ({ st with storage := storage, observers := observers }, .ok ())

/-- `getNested(key)` (source lines 96-100): `get(storage, key, null)`,
then, when the result is object-like (`result === Object(result)`), a
shallow copy `assign({}, result)` — which for an array produces a plain
object of its index properties.  Total: reads never throw. -/
def getNested (st : Store) (key : String) : JSVal :=
  let result := lodashGetTop st.storage (jsSplit key)
  let result := match result with
    | .undefined => .null
    | r => r
  if isObjectLike result then assignVal (.obj []) result else result

/-- `setNested(key, value)` (source lines 107-112): sanitize the value
(the sanitize error propagates before any mutation), deep-set it at the
dot-path, then fire the observers of the first path segment with that
namespace's full current value. -/
def setNested (st : Store) (key : String) (value : JSVal) :
    Store × Except StoreError (List Notif) :=
  let segs := jsSplit key
  match sanitizeData value with
  | none => (st, .error .jsonParseError)
  | some s =>
    let st := { st with storage := lodashSetTop st.storage segs s }
    let ns := segs.headD ""
    (st, fire st ns ((olookup st.storage ns).getD .undefined))

/-- `generateObserverId()` (source lines 141-143): a fresh id.  The source
draws a random token; the model draws from a counter. -/
def generateObserverId (st : Store) : Nat × Store :=
  (st.nextId, { st with nextId := st.nextId + 1 })

/-- `subscribe(namespace, fn)` (source lines 120-125): generate an id
first, then throw `'Invalid namespace'` when `observers[namespace]` is
absent, else register the observer under the id and return the id. -/
def subscribe (st : Store) (ns : String) : Store × Except StoreError Nat :=
  let gen := generateObserverId st
  match olookup gen.2.observers ns with
  | none => (gen.2, .error .invalidNamespace)
  | some ids =>
    ({ gen.2 with observers := (oset gen.2.observers ns
        (if ids.contains gen.1 then ids else ids ++ [gen.1])) },
     .ok gen.1)

/-- `unsubscribe(namespace, id)` (source lines 133-135):
`observers[namespace] = omit(observers[namespace], [id])` — never throws;
on an unknown namespace `omit(undefined, ...)` installs a fresh empty
observer set. -/
def unsubscribe (st : Store) (ns : String) (id : Nat) : Store :=
  let ids := (olookup st.observers ns).getD []
  { st with observers := oset st.observers ns (ids.filter (fun i => i != id)) }

/-- The top-level keys of storage, in insertion order. -/
def storageKeys (st : Store) : List String := st.storage.map Prod.fst

/-- How often observer `id` occurs in a list of notifications. -/
def countId (id : Nat) (notifs : List Notif) : Nat :=
  (notifs.filter fun q => q.1 == id).length

/-- One call of the store's public API, for reasoning about call
sequences. -/
inductive Op where
  | update (ns : String) (data : JSVal) (merge : Bool)
  | set (key : String) (value : JSVal)
  | get (key : String)
  | subscribe (ns : String)
  | unsubscribe (ns : String) (id : Nat)
  | init (data : JSVal) (log : Bool)

/-- Run one API call: the state it leaves behind (also when it throws) and
the observer invocations it performed. -/
def runOp (st : Store) : Op → Store × List Notif
  | .update ns data merge =>
    match updateStore st ns data merge with
    | (st', .ok notifs) => (st', notifs)
    | (st', .error _) => (st', [])
  | .set key value =>
    match setNested st key value with
    | (st', .ok notifs) => (st', notifs)
    | (st', .error _) => (st', [])
  | .get _ => (st, [])
  | .subscribe ns => ((subscribe st ns).1, [])
  | .unsubscribe ns id => (unsubscribe st ns id, [])
  | .init data log => ((init st data log).1, [])

/-- Run a sequence of API calls, accumulating all observer invocations. -/
def runOps (st : Store) : List Op → Store × List Notif
  | [] => (st, [])
  | op :: ops =>
    ((runOps (runOp st op).1 ops).1, (runOp st op).2 ++ (runOps (runOp st op).1 ops).2)

/-- Calls under which the claim C8 key-set invariant is amended to hold: any
`update`, `get`, `subscribe`, `unsubscribe`; a `set` only when its path's
first segment is one of the given keys; no re-`init`. -/
def keySafe (ks : List String) : Op → Bool
  | .set key _ => (jsSplit key).headD "" ∈ ks
  | .init _ _ => false
  | _ => true

/-
The re-entrant model.  `fire` passes `storage[namespace]` — a reference to
a mutable object — to every observer, and an observer's callback may itself
call `update` on the same namespace before returning.  A merge
(`assign(storage[ns], …)`) mutates that same object in place, while an
override (`assign({}, …)`) installs a fresh object into storage, detaching
the reference the still-unwinding outer fire loop holds.  To capture this,
namespace values live in an explicit heap of cells: `rstorage` maps a
namespace to a cell index, `fire` hands observers the cell index, and the
payload an observer "receives" is the cell's contents at invocation time.
Observers are scripted: `inert` only records, `updateOnFirst` issues one
nested `update(ns, data, merge)` the first time it is invoked — the shape
of the spec's self-triggered-update scenario.
-/

/-- The scripted behavior of a registered observer callback. -/
inductive ObsBeh where
  | inert
  | updateOnFirst (ns : String) (data : JSVal) (merge : Bool)

/-- Store state for the re-entrant model.  `events` is the chronological
log of observer invocations `(id, contents of the delivered object at
invocation time)`. -/
structure RStore where
  cells : List JSVal
  rstorage : List (String × Nat)
  robs : List (String × List (Nat × ObsBeh))
  rfired : List Nat
  events : List (Nat × JSVal)

/-- The two interleaved activities of a re-entrant run: an `update` call,
or a fire loop part-way through its snapshot of the observer list. -/
inductive RCall where
  | upd (ns : String) (data : JSVal) (merge : Bool)
  | fir (ns : String) (c : Nat) (pending : List (Nat × ObsBeh))

/-- Small-step executor for re-entrant updates, structural in `fuel` so
that concrete runs compute (any fuel large enough for the nesting depth
gives the run's true result; the scenarios below nest two calls deep).

`upd` mirrors `updateStore`: check `storage[ns]` is truthy, sanitize, then
either merge into the existing cell in place or allocate a fresh cell and
repoint the namespace, and finally fire the namespace's observer list
snapshot with the (new) cell.  `fir` mirrors the `forEach` loop in `fire`:
deliver the cell's current contents to the next observer, let its script
run (a nested `upd` completes entirely here), then continue with the rest
of the snapshot — still holding the originally passed cell `c`. -/
def rstep : Nat → RCall → RStore → RStore
  | 0, _, st => st
  | fuel + 1, .upd ns data merge, st =>
    match olookup st.rstorage ns with
    | none => st
    | some c =>
      if truthy (st.cells.getD c .undefined) = false then st
      else
        match sanitizeData data with
        | none => st
        | some s =>
          let st' :=
            if merge then
              { st with cells := st.cells.set c (assignVal (st.cells.getD c .undefined) s) }
            else
              { st with cells := st.cells ++ [assignVal (.obj []) s],
                        rstorage := oset st.rstorage ns st.cells.length }
          let c' := (olookup st'.rstorage ns).getD c
          rstep fuel (.fir ns c' ((olookup st'.robs ns).getD [])) st'
  | _ + 1, .fir _ _ [], st => st
  | fuel + 1, .fir ns c ((id, beh) :: rest), st =>
    let payload := st.cells.getD c .undefined
    let st₁ := { st with events := st.events ++ [(id, payload)] }
    let wasFired := st₁.rfired.contains id
    let st₂ := { st₁ with rfired := id :: st₁.rfired }
    let st₃ :=
      match beh with
      | .inert => st₂
      | .updateOnFirst ns' d m => if wasFired then st₂ else rstep fuel (.upd ns' d m) st₂
    rstep fuel (.fir ns c rest) st₃

/-- A top-level `update` call in the re-entrant model. -/
def rupdate (fuel : Nat) (st : RStore) (ns : String) (data : JSVal) (merge : Bool) : RStore :=
  rstep fuel (.upd ns data merge) st

/-- The payload of the last invocation of observer `id` in an event log. -/
def lastDelivered (id : Nat) (events : List (Nat × JSVal)) : Option JSVal :=
  ((events.filter fun e => e.1 == id).getLast?).map Prod.snd

/-- The spec's self-triggered-update scenario: namespace `ns` starts as
`{foo: 'bar'}`; observer 0 issues `update(ns, {foo:'second'}, merge)` upon
its first invocation; observer 1 is an external, recording observer. -/
def c6Start (merge : Bool) : RStore :=
  { cells := [.obj [("foo", .str "bar")]]
    rstorage := [("ns", 0)]
    robs := [("ns", [(0, .updateOnFirst "ns" (.obj [("foo", .str "second")]) merge), (1, .inert)])]
    rfired := []
    events := [] }

/-- The raw resolution of a dot-path against storage, before `getNested`'s
null-defaulting and copy-on-read: exactly `lodash.get(storage, key)`. -/
def resolveRaw (st : Store) (key : String) : JSVal :=
  lodashGetTop st.storage (jsSplit key)

/-! ### Concrete states used to exercise the claims -/

/-- `init({ns: {foo: 'bar'}})`. -/
def storeNsFooBar : Store :=
  (init emptyStore (.obj [("ns", .obj [("foo", .str "bar")])]) false).1

/-- `init({ns: {foo: 'bar'}})` followed by `subscribe('ns', fn)`, which
registers observer id 0. -/
def storeNsFooBarSub : Store := (subscribe storeNsFooBar "ns").1

/-- `init({ns: {a: 1, b: 2}})` — the merge-law example state. -/
def storeAB : Store :=
  (init emptyStore (.obj [("ns", .obj [("a", .num 1), ("b", .num 2)])]) false).1

/-- `init({ns: {}})`. -/
def storeEmptyNs : Store := (init emptyStore (.obj [("ns", .obj [])]) false).1

/-- `init({ns: {}})` followed by `set('ns.x', ['foo'])`. -/
def storeArrX : Store := (setNested storeEmptyNs "ns.x" (.arr [.str "foo"])).1

/-- `init({a: false})` — a declared namespace holding a falsy value. -/
def storeFalsyA : Store := (init emptyStore (.obj [("a", .bool false)]) false).1

/-- `init({ns: 1}, true)` — logging switched on. -/
def storeNum1Log : Store := (init emptyStore (.obj [("ns", .num 1)]) true).1

/-- `init({ns: 0})` — a declared namespace holding the falsy value 0. -/
def storeNumZero : Store := (init emptyStore (.obj [("ns", .num 0)]) false).1

/-- `init({ns: {x: 1}})`. -/
def storeNsX1 : Store := (init emptyStore (.obj [("ns", .obj [("x", .num 1)])]) false).1

/-- `init({a: {}})`. -/
def storeObjA : Store := (init emptyStore (.obj [("a", .obj [])]) false).1

/-- `init({a: {}})` followed by `subscribe('a', fn)` (observer id 0). -/
def storeObjASub : Store := (subscribe storeObjA "a").1

/-- `init({a: {}})`; `subscribe('a', fn)`; then a second `init({b: {}})`
that does not re-declare `a`. -/
def storeReinitB : Store := (init storeObjASub (.obj [("b", .obj [])]) false).1

/-! ### Association-list lemmas -/

theorem olookup_oset_self {α : Type} (l : List (String × α)) (k : String) (v : α) :
    olookup (oset l k v) k = some v := by
  induction l with
  | nil => simp [oset, olookup]
  | cons p t ih =>
    obtain ⟨k', v'⟩ := p
    by_cases h : k' = k
    · simp [oset, olookup, h]
    · simp [oset, olookup, h, ih]

theorem olookup_oset_ne {α : Type} (l : List (String × α)) (k k' : String) (v : α)
    (h : k' ≠ k) : olookup (oset l k v) k' = olookup l k' := by
  induction l with
  | nil => simp [oset, olookup, Ne.symm h]
  | cons p t ih =>
    obtain ⟨k₀, v₀⟩ := p
    by_cases h₀ : k₀ = k
    · subst h₀
      simp [oset, olookup, Ne.symm h]
    · simp only [oset, if_neg h₀, olookup, ih]

theorem oset_map_fst {α : Type} (l : List (String × α)) (k : String) (v : α)
    (h : k ∈ l.map Prod.fst) : (oset l k v).map Prod.fst = l.map Prod.fst := by
  induction l with
  | nil => simp at h
  | cons p t ih =>
    obtain ⟨k₀, v₀⟩ := p
    by_cases h₀ : k₀ = k
    · simp [oset, h₀]
    · have ht : k ∈ t.map Prod.fst := by
        rcases List.mem_map.1 h with ⟨q, hq, hfst⟩
        rcases List.mem_cons.1 hq with rfl | hq'
        · exact absurd hfst h₀
        · exact List.mem_map.2 ⟨q, hq', hfst⟩
      simp [oset, h₀, ih ht]

theorem mem_keys_of_olookup {α : Type} (l : List (String × α)) (k : String) (v : α)
    (h : olookup l k = some v) : k ∈ l.map Prod.fst := by
  induction l with
  | nil => simp [olookup] at h
  | cons p t ih =>
    obtain ⟨k₀, v₀⟩ := p
    by_cases h₀ : k₀ = k
    · subst h₀
      simp
    · simp only [olookup, if_neg h₀] at h
      simp only [List.map_cons, List.mem_cons]
      exact Or.inr (ih h)

theorem olookup_eq_none {α : Type} (l : List (String × α)) (k : String)
    (h : k ∉ l.map Prod.fst) : olookup l k = none := by
  induction l with
  | nil => rfl
  | cons p t ih =>
    obtain ⟨k₀, v₀⟩ := p
    simp only [List.map_cons, List.mem_cons] at h
    push_neg at h
    simp only [olookup, if_neg (Ne.symm h.1)]
    exact ih h.2

theorem mem_of_olookup {α : Type} (l : List (String × α)) (k : String) (v : α)
    (h : olookup l k = some v) : (k, v) ∈ l := by
  induction l with
  | nil => simp [olookup] at h
  | cons p t ih =>
    obtain ⟨k₀, v₀⟩ := p
    by_cases h₀ : k₀ = k
    · subst h₀
      simp only [olookup, if_pos rfl] at h
      obtain rfl := Option.some.inj h
      exact List.mem_cons_self _ _
    · simp only [olookup, if_neg h₀] at h
      exact List.mem_cons_of_mem _ (ih h)

theorem mem_oset {α : Type} (l : List (String × α)) (k : String) (v : α) (p : String × α)
    (h : p ∈ oset l k v) : p = (k, v) ∨ p ∈ l := by
  induction l with
  | nil => simpa [oset] using h
  | cons q t ih =>
    obtain ⟨k₀, v₀⟩ := q
    by_cases h₀ : k₀ = k
    · simp only [oset, if_pos h₀] at h
      rcases List.mem_cons.1 h with rfl | h'
      · exact Or.inl rfl
      · exact Or.inr (List.mem_cons_of_mem _ h')
    · simp only [oset, if_neg h₀] at h
      rcases List.mem_cons.1 h with rfl | h'
      · exact Or.inr (List.mem_cons_self _ _)
      · rcases ih h' with h'' | h''
        · exact Or.inl h''
        · exact Or.inr (List.mem_cons_of_mem _ h'')

theorem mem_oset_nodup {α : Type} (l : List (String × α)) (k : String) (v : α) (p : String × α)
    (hnd : (l.map Prod.fst).Nodup) (h : p ∈ oset l k v) :
    p = (k, v) ∨ (p ∈ l ∧ p.1 ≠ k) := by
  induction l with
  | nil =>
    simp only [oset, List.mem_singleton] at h
    exact Or.inl h
  | cons q t ih =>
    obtain ⟨k₀, v₀⟩ := q
    simp only [List.map_cons, List.nodup_cons] at hnd
    by_cases h₀ : k₀ = k
    · subst h₀
      simp only [oset, if_pos rfl] at h
      rcases List.mem_cons.1 h with rfl | h'
      · exact Or.inl rfl
      · refine Or.inr ⟨List.mem_cons_of_mem _ h', ?_⟩
        intro hp
        exact hnd.1 (hp ▸ List.mem_map.2 ⟨p, h', rfl⟩)
    · simp only [oset, if_neg h₀] at h
      rcases List.mem_cons.1 h with rfl | h'
      · exact Or.inr ⟨List.mem_cons_self _ _, h₀⟩
      · rcases ih hnd.2 h' with h'' | h''
        · exact Or.inl h''
        · exact Or.inr ⟨List.mem_cons_of_mem _ h''.1, h''.2⟩

theorem olookup_of_mem_nodup {α : Type} (l : List (String × α)) (k : String) (v : α)
    (hnd : (l.map Prod.fst).Nodup) (h : (k, v) ∈ l) : olookup l k = some v := by
  induction l with
  | nil => simp at h
  | cons q t ih =>
    obtain ⟨k₀, v₀⟩ := q
    simp only [List.map_cons, List.nodup_cons] at hnd
    rcases List.mem_cons.1 h with he | h'
    · have h1 : k = k₀ := congrArg Prod.fst he
      have h2 : v = v₀ := congrArg Prod.snd he
      subst h1
      subst h2
      simp [olookup]
    · have hne : k₀ ≠ k := by
        intro he
        subst he
        exact hnd.1 (List.mem_map.2 ⟨(k₀, v), h', rfl⟩)
      simp only [olookup, if_neg hne]
      exact ih hnd.2 h'

/-- Lookup after `lodash.assign`: a key of the (duplicate-free) source wins
with its source value; any other key keeps its target value. -/
theorem olookup_assignEntries (t src : List (String × JSVal)) (k : String)
    (hnd : (src.map Prod.fst).Nodup) :
    olookup (assignEntries t src) k =
      match olookup src k with
      | some v => some v
      | none => olookup t k := by
  induction src generalizing t with
  | nil => simp [assignEntries, olookup]
  | cons p rest ih =>
    obtain ⟨k₀, v₀⟩ := p
    simp only [List.map_cons, List.nodup_cons] at hnd
    by_cases h₀ : k₀ = k
    · subst h₀
      have hres : olookup rest k₀ = none :=
        olookup_eq_none _ _ (by simpa using hnd.1)
      simp [assignEntries, olookup, hres, ih _ hnd.2, olookup_oset_self]
    · simp only [assignEntries, olookup, if_neg h₀, ih _ hnd.2]
      cases olookup rest k with
      | none => simp [olookup_oset_ne _ _ _ _ (fun he => h₀ he.symm)]
      | some w => simp

/-- Setting a key that is not yet present appends the binding. -/
theorem oset_of_not_mem {α : Type} (l : List (String × α)) (k : String) (v : α)
    (h : k ∉ l.map Prod.fst) : oset l k v = l ++ [(k, v)] := by
  induction l with
  | nil => rfl
  | cons q t ih =>
    obtain ⟨k₁, v₁⟩ := q
    simp only [List.map_cons, List.mem_cons] at h
    push_neg at h
    simp [oset, Ne.symm h.1, ih h.2]

/-- `assign(t, src)` appends the source entries when the source's keys are
duplicate-free and disjoint from the target's. -/
theorem assignEntries_disjoint (src : List (String × JSVal)) :
    ∀ t : List (String × JSVal), (src.map Prod.fst).Nodup →
      (∀ p ∈ t, p.1 ∉ src.map Prod.fst) → assignEntries t src = t ++ src := by
  induction src with
  | nil => intro t _ _; simp [assignEntries]
  | cons p rest ih =>
    intro t hnd ht
    obtain ⟨k₀, v₀⟩ := p
    simp only [List.map_cons, List.nodup_cons] at hnd
    have hk₀ : k₀ ∉ t.map Prod.fst := by
      intro hmem
      rcases List.mem_map.1 hmem with ⟨q, hq, hfst⟩
      exact ht q hq (by simp [hfst])
    have hset := oset_of_not_mem t k₀ v₀ hk₀
    have ht' : ∀ p ∈ t ++ [(k₀, v₀)], p.1 ∉ rest.map Prod.fst := by
      intro q hq
      rcases List.mem_append.1 hq with hq' | hq'
      · intro hmem
        exact ht q hq' (by simp [hmem])
      · simp only [List.mem_singleton] at hq'
        subst hq'
        simpa using hnd.1
    calc assignEntries t ((k₀, v₀) :: rest)
        = assignEntries (t ++ [(k₀, v₀)]) rest := by rw [assignEntries, hset]
      _ = (t ++ [(k₀, v₀)]) ++ rest := ih _ hnd.2 ht'
      _ = t ++ ((k₀, v₀) :: rest) := by simp

/-- `assign({}, src)` is the identity on duplicate-free property lists. -/
theorem assignEntries_nil (src : List (String × JSVal))
    (hnd : (src.map Prod.fst).Nodup) : assignEntries [] src = src := by
  simpa using assignEntries_disjoint src [] hnd (by simp)

/-! ### Notification counting lemmas -/

theorem countId_nil (id : Nat) : countId id [] = 0 := rfl

theorem countId_append (id : Nat) (a b : List Notif) :
    countId id (a ++ b) = countId id a + countId id b := by
  simp [countId, List.filter_append]

theorem countId_cons (id j : Nat) (v : JSVal) (rest : List Notif) :
    countId id ((j, v) :: rest) = (if j = id then 1 else 0) + countId id rest := by
  by_cases hj : j = id <;> simp [countId, List.filter_cons, hj, Nat.add_comm]

theorem countId_map_eq_zero (id : Nat) (v : JSVal) (ids : List Nat) (h : id ∉ ids) :
    countId id (ids.map fun i => (i, v)) = 0 := by
  induction ids with
  | nil => rfl
  | cons j t ih =>
    simp only [List.mem_cons] at h
    push_neg at h
    simp only [List.map_cons, countId_cons, if_neg (Ne.symm h.1)]
    simpa using ih h.2

theorem countId_map_eq_one (id : Nat) (v : JSVal) (ids : List Nat)
    (hnd : ids.Nodup) (h : id ∈ ids) :
    countId id (ids.map fun i => (i, v)) = 1 := by
  induction ids with
  | nil => simp at h
  | cons j t ih =>
    simp only [List.nodup_cons] at hnd
    rcases List.mem_cons.1 h with rfl | hmem
    · rw [List.map_cons, countId_cons, if_pos rfl, countId_map_eq_zero id v t hnd.1]
    · have hj : j ≠ id := fun he => hnd.1 (he ▸ hmem)
      simp only [List.map_cons, countId_cons, if_neg hj]
      simpa using ih hnd.2 hmem

/-! ### Lemmas about the observer-registry reset performed by `init` -/

theorem olookup_foldl_oset_of_not_mem {α : Type} (l : List String) (obs : List (String × α))
    (x : α) (ns : String) (h : ns ∉ l) :
    olookup (l.foldl (fun o k => oset o k x) obs) ns = olookup obs ns := by
  induction l generalizing obs with
  | nil => rfl
  | cons k t ih =>
    simp only [List.mem_cons] at h
    push_neg at h
    simp only [List.foldl_cons, ih _ h.2]
    exact olookup_oset_ne _ _ _ _ h.1

theorem olookup_foldl_oset_of_mem {α : Type} (l : List String) (obs : List (String × α))
    (x : α) (ns : String) (h : ns ∈ l) :
    olookup (l.foldl (fun o k => oset o k x) obs) ns = some x := by
  induction l generalizing obs with
  | nil => simp at h
  | cons k t ih =>
    by_cases hm : ns ∈ t
    · simpa using ih _ hm
    · have hk : ns = k := by
        rcases List.mem_cons.1 h with rfl | hmem
        · rfl
        · exact absurd hmem hm
      subst hk
      simp only [List.foldl_cons, olookup_foldl_oset_of_not_mem _ _ _ _ hm]
      exact olookup_oset_self _ _ _

theorem mem_foldl_oset {α : Type} (l : List String) (obs : List (String × α)) (x : α)
    (p : String × α) (h : p ∈ l.foldl (fun o k => oset o k x) obs) :
    p.2 = x ∨ p ∈ obs := by
  induction l generalizing obs with
  | nil => exact Or.inr h
  | cons k t ih =>
    simp only [List.foldl_cons] at h
    rcases ih _ h with h' | h'
    · exact Or.inl h'
    · rcases mem_oset _ _ _ _ h' with rfl | h''
      · exact Or.inl rfl
      · exact Or.inr h''

/-! ### The top-level key set of storage under each operation -/

theorem updateStore_storageKeys (st : Store) (ns : String) (data : JSVal) (merge : Bool) :
    storageKeys (updateStore st ns data merge).1 = storageKeys st := by
  by_cases htr : truthy ((olookup st.storage ns).getD .undefined) = false
  · simp [updateStore, htr]
  · have hks : ns ∈ st.storage.map Prod.fst := by
      cases hl : olookup st.storage ns with
      | none => simp [hl, truthy] at htr
      | some v => exact mem_keys_of_olookup _ _ _ hl
    cases hs : sanitizeData data with
    | none => simp [updateStore, htr, hs]
    | some s =>
      simp only [updateStore, htr, if_false, hs, storageKeys]
      exact oset_map_fst _ _ _ hks

theorem lodashSetTop_map_fst (storage : List (String × JSVal)) (segs : List String) (v : JSVal)
    (h : segs.headD "" ∈ storage.map Prod.fst) :
    (lodashSetTop storage segs v).map Prod.fst = storage.map Prod.fst := by
  match segs with
  | [] => rfl
  | [k] => exact oset_map_fst _ _ _ h
  | k :: k2 :: rest => exact oset_map_fst _ _ _ h

theorem setNested_storageKeys (st : Store) (key : String) (v : JSVal)
    (h : (jsSplit key).headD "" ∈ storageKeys st) :
    storageKeys (setNested st key v).1 = storageKeys st := by
  cases hs : sanitizeData v with
  | none => simp [setNested, hs]
  | some s =>
    simp only [setNested, hs, storageKeys]
    exact lodashSetTop_map_fst _ _ _ h

theorem runOp_storageKeys (st : Store) (op : Op)
    (h : keySafe (storageKeys st) op = true) :
    storageKeys (runOp st op).1 = storageKeys st := by
  cases op with
  | update ns data merge =>
    have hu := updateStore_storageKeys st ns data merge
    cases hres : updateStore st ns data merge with
    | mk st' r =>
      rw [hres] at hu
      cases r <;> simpa [runOp, hres] using hu
  | set key value =>
    have hset : (jsSplit key).headD "" ∈ storageKeys st := by
      simpa [keySafe] using h
    have hu := setNested_storageKeys st key value hset
    cases hres : setNested st key value with
    | mk st' r =>
      rw [hres] at hu
      cases r <;> simpa [runOp, hres] using hu
  | get key => rfl
  | subscribe ns =>
    cases hl : olookup st.observers ns with
    | none => simp [runOp, subscribe, generateObserverId, hl, storageKeys]
    | some ids => simp [runOp, subscribe, generateObserverId, hl, storageKeys]
  | unsubscribe ns id => rfl
  | init data log => simp [keySafe] at h

/-! ### Result shapes of the mutating operations -/

/-- `updateStore` either throws `'Invalid namespace'` on a falsy namespace
value before mutating, or throws the sanitize error before mutating, or
stores some value `v` at the namespace and returns the outcome of firing
the namespace's observers with `v`. -/
theorem updateStore_shape (st : Store) (ns : String) (data : JSVal) (merge : Bool) :
    (updateStore st ns data merge = (st, .error .invalidNamespace) ∧
      truthy ((olookup st.storage ns).getD .undefined) = false) ∨
    (updateStore st ns data merge = (st, .error .jsonParseError) ∧ sanitizeData data = none) ∨
    (∃ v, v = assignVal (if merge then (olookup st.storage ns).getD .undefined else .obj [])
            ((sanitizeData data).getD .null) ∧
      (updateStore st ns data merge).1 = { st with storage := oset st.storage ns v } ∧
      (updateStore st ns data merge).2 =
        fire { st with storage := oset st.storage ns v } ns v) := by
  by_cases htr : truthy ((olookup st.storage ns).getD .undefined) = false
  · exact Or.inl ⟨by simp [updateStore, htr], htr⟩
  · cases hs : sanitizeData data with
    | none => exact Or.inr (Or.inl ⟨by simp [updateStore, htr, hs], rfl⟩)
    | some s =>
      refine Or.inr (Or.inr ⟨_, rfl, ?_, ?_⟩) <;> simp [updateStore, htr, hs]

/-- `setNested` either throws the sanitize error before mutating, or
deep-sets the sanitized value at the path and returns the outcome of
firing the observers of the first path segment with that namespace's full
current value. -/
theorem setNested_shape (st : Store) (key : String) (value : JSVal) :
    (setNested st key value = (st, .error .jsonParseError) ∧ sanitizeData value = none) ∨
    (∃ s, sanitizeData value = some s ∧
      (setNested st key value).1 =
        { st with storage := lodashSetTop st.storage (jsSplit key) s } ∧
      (setNested st key value).2 =
        fire (setNested st key value).1 ((jsSplit key).headD "")
          ((olookup (setNested st key value).1.storage ((jsSplit key).headD "")).getD .undefined)) := by
  cases hs : sanitizeData value with
  | none => exact Or.inl ⟨by simp [setNested, hs], rfl⟩
  | some s =>
    refine Or.inr ⟨s, rfl, ?_, ?_⟩ <;> simp [setNested, hs]

/-! ### Absence of an observer id, preserved by every operation -/

/-- Observer `id` is registered nowhere, and is older than the id
counter (so no later `subscribe` can mint it again). -/
def absentAll (st : Store) (id : Nat) : Prop :=
  (∀ p ∈ st.observers, id ∉ p.2) ∧ id < st.nextId

theorem absentAll_fire (st : Store) (id : Nat) (h : absentAll st id)
    (ns : String) (payload : JSVal) (notifs : List Notif)
    (hf : fire st ns payload = .ok notifs) : countId id notifs = 0 := by
  cases hl : olookup st.observers ns with
  | none => simp [fire, hl] at hf
  | some ids =>
    simp only [fire, hl, Except.ok.injEq] at hf
    subst hf
    exact countId_map_eq_zero _ _ _ (h.1 _ (mem_of_olookup _ _ _ hl))

theorem absentAll_runOp (st : Store) (op : Op) (id : Nat) (h : absentAll st id) :
    absentAll (runOp st op).1 id ∧ countId id (runOp st op).2 = 0 := by
  cases op with
  | update ns data merge =>
    have hobs : ∀ st' : Store, st'.observers = st.observers → st'.nextId = st.nextId →
        absentAll st' id := by
      intro st' h₁ h₂
      exact ⟨h₁ ▸ h.1, h₂ ▸ h.2⟩
    rcases updateStore_shape st ns data merge with ⟨heq, _⟩ | ⟨heq, _⟩ | ⟨v, _, h₁, h₂⟩
    · exact ⟨by simpa [runOp, heq] using h, by simp [runOp, heq, countId]⟩
    · exact ⟨by simpa [runOp, heq] using h, by simp [runOp, heq, countId]⟩
    · cases hres : updateStore st ns data merge with
      | mk st' r =>
        rw [hres] at h₁ h₂
        have hst' : st' = { st with storage := oset st.storage ns v } := h₁
        have habs : absentAll st' id := by
          rw [hst']; exact hobs _ rfl rfl
        cases r with
        | error e => exact ⟨by simpa [runOp, hres] using habs, by simp [runOp, hres, countId]⟩
        | ok notifs =>
          have hcnt : countId id notifs = 0 := by
            have hfe : fire { st with storage := oset st.storage ns v } ns v = .ok notifs :=
              h₂.symm
            exact absentAll_fire _ id (hobs _ rfl rfl) _ _ _ hfe
          exact ⟨by simpa [runOp, hres] using habs, by simpa [runOp, hres] using hcnt⟩
  | set key value =>
    have hobs : ∀ st' : Store, st'.observers = st.observers → st'.nextId = st.nextId →
        absentAll st' id := by
      intro st' h₁ h₂
      exact ⟨h₁ ▸ h.1, h₂ ▸ h.2⟩
    rcases setNested_shape st key value with ⟨heq, _⟩ | ⟨s, hs, h₁, h₂⟩
    · exact ⟨by simpa [runOp, heq] using h, by simp [runOp, heq, countId]⟩
    · cases hres : setNested st key value with
      | mk st' r =>
        rw [hres] at h₁ h₂
        have hst' : st' = { st with storage := lodashSetTop st.storage (jsSplit key) s } := h₁
        have habs : absentAll st' id := by
          rw [hst']; exact hobs _ rfl rfl
        cases r with
        | error e => exact ⟨by simpa [runOp, hres] using habs, by simp [runOp, hres, countId]⟩
        | ok notifs =>
          have hcnt : countId id notifs = 0 :=
            absentAll_fire _ id habs _ _ _ h₂.symm
          exact ⟨by simpa [runOp, hres] using habs, by simpa [runOp, hres] using hcnt⟩
  | get key => exact ⟨h, rfl⟩
  | subscribe ns =>
    cases hl : olookup st.observers ns with
    | none =>
      refine ⟨⟨?_, ?_⟩, rfl⟩
      · intro p hp
        have hp' : p ∈ st.observers := by
          simpa [runOp, subscribe, generateObserverId, hl] using hp
        exact h.1 p hp'
      · simpa [runOp, subscribe, generateObserverId, hl] using Nat.lt_succ_of_lt h.2
    | some ids =>
      have hid : id ∉ ids := h.1 _ (mem_of_olookup _ _ _ hl)
      refine ⟨⟨?_, ?_⟩, rfl⟩
      · intro p hp
        have hp' : p ∈ oset st.observers ns
            (if st.nextId ∈ ids then ids else ids ++ [st.nextId]) := by
          simpa [runOp, subscribe, generateObserverId, hl, List.elem_iff] using hp
        rcases mem_oset _ _ _ _ hp' with rfl | hmem
        · by_cases hc : st.nextId ∈ ids
          · simpa [hc] using hid
          · simp only [hc, if_false]
            intro hin
            rcases List.mem_append.1 hin with hin' | hin'
            · exact hid hin'
            · have he : id = st.nextId := by simpa using hin'
              exact absurd he (Nat.ne_of_lt h.2)
        · exact h.1 _ hmem
      · simpa [runOp, subscribe, generateObserverId, hl] using Nat.lt_succ_of_lt h.2
  | unsubscribe ns uid =>
    refine ⟨⟨?_, h.2⟩, rfl⟩
    intro p hp
    simp only [runOp, unsubscribe] at hp
    rcases mem_oset _ _ _ _ hp with rfl | hmem
    · intro hin
      have hin' := List.mem_filter.1 hin
      cases hl : olookup st.observers ns with
      | none => simp [hl] at hin'
      | some ids =>
        simp only [hl, Option.getD_some] at hin'
        exact h.1 _ (mem_of_olookup _ _ _ hl) hin'.1
    · exact h.1 _ hmem
  | init data log =>
    by_cases htr : truthy data = false
    · refine ⟨⟨?_, ?_⟩, rfl⟩
      · intro p hp
        exact h.1 p (by simpa [runOp, init, htr] using hp)
      · simpa [runOp, init, htr] using h.2
    · cases hs : sanitizeData data with
      | none =>
        refine ⟨⟨?_, ?_⟩, rfl⟩
        · intro p hp
          exact h.1 p (by simpa [runOp, init, htr, hs] using hp)
        · simpa [runOp, init, htr, hs] using h.2
      | some s =>
        refine ⟨⟨?_, ?_⟩, rfl⟩
        · intro p hp
          have hp' : p ∈ ((assignEntries [] (toEntries s)).map Prod.fst).foldl
              (fun o k => oset o k []) st.observers := by
            simpa [runOp, init, htr, hs] using hp
          rcases mem_foldl_oset _ _ _ _ hp' with h' | h'
          · simp [h']
          · exact h.1 _ h'
        · simpa [runOp, init, htr, hs] using h.2

/-- An absent id is never notified by any subsequent sequence of API
calls. -/
theorem absentAll_runOps (st : Store) (ops : List Op) (id : Nat) (h : absentAll st id) :
    countId id (runOps st ops).2 = 0 := by
  induction ops generalizing st with
  | nil => rfl
  | cons op rest ih =>
    have h₁ := absentAll_runOp st op id h
    simp only [runOps, countId_append, h₁.2, ih _ h₁.1]

/-! ### Claim C2 — the merge law of `update` -/

/-- C2: for a namespace whose current value is an object and data that
sanitizes to an object, `update(ns, data, true)` shallow-merges the
sanitized data into the existing namespace value (keys of the data
overwrite, keys absent from the data are preserved — the `match` clause),
fires with the merged value, and `update(ns, data, false)` replaces the
namespace value outright with the sanitized data. -/
theorem claim2_merge_law (st : Store) (ns : String) (data : JSVal)
    (kvs ds : List (String × JSVal)) (l : List Nat)
    (hv : olookup st.storage ns = some (.obj kvs))
    (hs : sanitizeData data = some (.obj ds))
    (hnd : (ds.map Prod.fst).Nodup)
    (hobs : olookup st.observers ns = some l) :
    updateStore st ns data true =
      ({ st with storage := oset st.storage ns (.obj (assignEntries kvs ds)) },
       .ok (l.map fun id => (id, JSVal.obj (assignEntries kvs ds)))) ∧
    (∀ k, olookup (assignEntries kvs ds) k =
      match olookup ds k with
      | some v => some v
      | none => olookup kvs k) ∧
    updateStore st ns data false =
      ({ st with storage := oset st.storage ns (.obj ds) },
       .ok (l.map fun id => (id, JSVal.obj ds))) := by
  refine ⟨?_, ?_, ?_⟩
  · simp [updateStore, hv, truthy, hs, assignVal, toEntries, fire, hobs]
  · intro k
    exact olookup_assignEntries kvs ds k hnd
  · have hid : assignEntries [] ds = ds := assignEntries_nil ds hnd
    simp [updateStore, hv, truthy, hs, assignVal, toEntries, fire, hobs, hid]

/-- Witness for C2 at the spec's own example: from `{a: 1, b: 2}`,
`update(ns, {b: 3}, true)` yields `{a: 1, b: 3}` and
`update(ns, {b: 3}, false)` yields `{b: 3}`. -/
theorem claim2_witness :
    olookup storeAB.storage "ns" = some (.obj [("a", .num 1), ("b", .num 2)]) ∧
    sanitizeData (.obj [("b", .num 3)]) = some (.obj [("b", .num 3)]) ∧
    (updateStore storeAB "ns" (.obj [("b", .num 3)]) true).1.storage =
      [("ns", .obj [("a", .num 1), ("b", .num 3)])] ∧
    (updateStore storeAB "ns" (.obj [("b", .num 3)]) false).1.storage =
      [("ns", .obj [("b", .num 3)])] := by
  have h := claim2_merge_law storeAB "ns" (.obj [("b", .num 3)])
    [("a", .num 1), ("b", .num 2)] [("b", .num 3)] [] rfl rfl (by simp) rfl
  refine ⟨rfl, rfl, ?_, ?_⟩
  · rw [h.1]
    rfl
  · rw [h.2.2]
    rfl

/-! ### Claim C4 — when `update` and `subscribe` raise NamespaceNotFound -/

/-- C4 counterexample: after `init({a: false})`, the namespace `'a'` is a
key of storage, yet `update('a', {})` raises `'Invalid namespace'` —
refuting "when ns is a key of Storage, neither operation raises this
error". -/
theorem claim4_counterexample :
    storageKeys storeFalsyA = ["a"] ∧
    updateStore storeFalsyA "a" (.obj []) true = (storeFalsyA, .error .invalidNamespace) :=
  ⟨rfl, rfl⟩

/-- C4 (amended): `update` raises `'Invalid namespace'` exactly when the
namespace's current value is JS-falsy (missing, or a declared falsy value
such as `false`/`0`/`''`/`null`), and then leaves the whole state
unchanged; `subscribe` raises it exactly when the namespace has no entry
in the observer registry (never declared by any `init` and never touched
by `unsubscribe`), and then leaves the registry and storage unchanged. -/
theorem claim4_error_conditions (st : Store) (ns : String) (data : JSVal) (merge : Bool) :
    ((updateStore st ns data merge).2 = .error .invalidNamespace ↔
      truthy ((olookup st.storage ns).getD .undefined) = false) ∧
    ((updateStore st ns data merge).2 = .error .invalidNamespace →
      (updateStore st ns data merge).1 = st) ∧
    ((subscribe st ns).2 = .error .invalidNamespace ↔ olookup st.observers ns = none) ∧
    ((subscribe st ns).2 = .error .invalidNamespace →
      (subscribe st ns).1.observers = st.observers ∧
      (subscribe st ns).1.storage = st.storage) := by
  have hsub : ((subscribe st ns).2 = .error .invalidNamespace ↔
      olookup st.observers ns = none) ∧
      ((subscribe st ns).2 = .error .invalidNamespace →
        (subscribe st ns).1.observers = st.observers ∧
        (subscribe st ns).1.storage = st.storage) := by
    cases hl : olookup st.observers ns with
    | none =>
      refine ⟨by simp [subscribe, generateObserverId, hl], fun _ => ?_⟩
      constructor <;> simp [subscribe, generateObserverId, hl]
    | some ids =>
      refine ⟨by simp [subscribe, generateObserverId, hl], fun he => ?_⟩
      exact absurd he (by simp [subscribe, generateObserverId, hl])
  have hupd : ((updateStore st ns data merge).2 = .error .invalidNamespace ↔
      truthy ((olookup st.storage ns).getD .undefined) = false) ∧
      ((updateStore st ns data merge).2 = .error .invalidNamespace →
        (updateStore st ns data merge).1 = st) := by
    by_cases htr : truthy ((olookup st.storage ns).getD .undefined) = false
    · refine ⟨by simp [updateStore, htr], fun _ => by simp [updateStore, htr]⟩
    · have h2 : (updateStore st ns data merge).2 ≠ .error .invalidNamespace := by
        cases hs : sanitizeData data with
        | none => simp [updateStore, htr, hs]
        | some s =>
          cases hl : olookup st.observers ns with
          | none => simp [updateStore, htr, hs, fire, hl]
          | some ids => simp [updateStore, htr, hs, fire, hl]
      exact ⟨⟨fun he => absurd he h2, fun hf => absurd hf htr⟩, fun he => absurd he h2⟩
  exact ⟨hupd.1, hupd.2, hsub.1, hsub.2⟩

/-- Witness for C4 at a missing namespace: `update('nope', {})` and
`subscribe('nope', fn)` both raise, mutating nothing. -/
theorem claim4_witness :
    truthy ((olookup storeNsX1.storage "nope").getD .undefined) = false ∧
    (updateStore storeNsX1 "nope" (.obj []) true).2 = .error .invalidNamespace ∧
    (updateStore storeNsX1 "nope" (.obj []) true).1 = storeNsX1 ∧
    (subscribe storeNsX1 "nope").2 = .error .invalidNamespace ∧
    (subscribe storeNsX1 "nope").1.observers = storeNsX1.observers := by
  have h := claim4_error_conditions storeNsX1 "nope" (.obj []) true
  have he := h.1.mpr rfl
  have hs := h.2.2.1.mpr rfl
  exact ⟨rfl, he, h.2.1 he, hs, (h.2.2.2 hs).1⟩

/-! ### Claim C5 — validation behavior of `init` -/

/-- C5 counterexample: `init({})` with an empty mapping succeeds (the
claim says it must raise), and a failing `init` still overwrites the
logging flag set by the previous successful `init(..., true)` (the claim
says configuration persists on error). -/
theorem claim5_counterexample :
    (init emptyStore (.obj []) false).2 = .ok () ∧
    storeNum1Log.showLog = true ∧
    (init storeNum1Log .undefined false).2 = .error .invalidInit ∧
    (init storeNum1Log .undefined false).1.showLog = false :=
  ⟨rfl, rfl, rfl, rfl⟩

/-- C5 (amended): `init(data, log)` raises `'Invalid store
initialization'` exactly when `data` is JS-falsy (absent, `undefined`,
`null`, `false`, `0`, `''`, `NaN`) — an empty mapping is accepted; on that
error, storage and the observer registry are unchanged but the logging
flag has already been set to `log`; every object `data` (empty or not)
makes `init` succeed. -/
theorem claim5_init_validation (st : Store) (data : JSVal) (log : Bool) :
    ((init st data log).2 = .error .invalidInit ↔ truthy data = false) ∧
    (truthy data = false → (init st data log).1 = { st with showLog := log }) ∧
    (∀ kvs, data = .obj kvs → (init st data log).2 = .ok ()) := by
  by_cases htr : truthy data = false
  · refine ⟨by simp [init, htr], fun _ => by simp [init, htr], ?_⟩
    intro kvs hk
    subst hk
    simp [truthy] at htr
  · cases hs : sanitizeData data with
    | none =>
      refine ⟨by simp [init, htr, hs], fun hf => absurd hf htr, ?_⟩
      intro kvs hk
      subst hk
      simp [sanitizeData] at hs
    | some s =>
      refine ⟨by simp [init, htr, hs], fun hf => absurd hf htr, ?_⟩
      intro kvs hk
      simp [init, htr, hs]

/-- Witness for C5: `init(null, true)` raises and only flips the logging
flag; `init({ns: 1})` succeeds. -/
theorem claim5_witness :
    truthy .null = false ∧
    (init emptyStore .null true).2 = .error .invalidInit ∧
    (init emptyStore .null true).1 = { emptyStore with showLog := true } ∧
    (init emptyStore (.obj [("ns", .num 1)]) false).2 = .ok () := by
  refine ⟨rfl, ?_, ?_, ?_⟩
  · exact (claim5_init_validation emptyStore .null true).1.mpr rfl
  · exact (claim5_init_validation emptyStore .null true).2.1 rfl
  · exact (claim5_init_validation emptyStore (.obj [("ns", .num 1)]) false).2.2 _ rfl

/-! ### Claim C10 — storing `undefined` or a bare function raises -/

/-- C10 counterexample: with `init({ns: 0})` the namespace is declared,
yet `update('ns', undefined)` raises `'Invalid namespace'` (the truthiness
guard fires first), not the sanitization error the claim promises. -/
theorem claim10_counterexample :
    storageKeys storeNumZero = ["ns"] ∧
    updateStore storeNumZero "ns" .undefined true = (storeNumZero, .error .invalidNamespace) ∧
    StoreError.invalidNamespace ≠ StoreError.jsonParseError :=
  ⟨rfl, rfl, by simp⟩

/-- C10 (amended): `sanitizeData` fails on a top-level `undefined` or bare
function; `update` surfaces that failure (and leaves the state unchanged)
whenever the namespace's current value is truthy — with a falsy value the
namespace error preempts it — and `set` surfaces it unconditionally,
leaving the state unchanged. -/
theorem claim10_sanitize_error (st : Store) (ns key : String) (v : JSVal) (merge : Bool) :
    sanitizeData .undefined = none ∧ sanitizeData .fn = none ∧
    (truthy ((olookup st.storage ns).getD .undefined) = true → sanitizeData v = none →
      updateStore st ns v merge = (st, .error .jsonParseError)) ∧
    (sanitizeData v = none → setNested st key v = (st, .error .jsonParseError)) := by
  refine ⟨rfl, rfl, ?_, ?_⟩
  · intro htr hv
    simp [updateStore, htr, hv]
  · intro hv
    simp [setNested, hv]

/-- Witness for C10: a truthy namespace value; `update('ns', undefined)`
and `set('ns.x', function)` both raise the sanitize error and leave the
store untouched. -/
theorem claim10_witness :
    truthy ((olookup storeNsX1.storage "ns").getD .undefined) = true ∧
    sanitizeData .undefined = none ∧
    updateStore storeNsX1 "ns" .undefined true = (storeNsX1, .error .jsonParseError) ∧
    setNested storeNsX1 "ns.x" .fn = (storeNsX1, .error .jsonParseError) := by
  refine ⟨rfl, rfl, ?_, ?_⟩
  · exact (claim10_sanitize_error storeNsX1 "ns" "ns.x" .undefined true).2.2.1 rfl rfl
  · exact (claim10_sanitize_error storeNsX1 "ns" "ns.x" .fn true).2.2.2 rfl

/-! ### Claim C1 — subscribers fire exactly once per mutation -/

/-- C1 counterexample: a live subscription (observer 0 of `ns`), and a
single `set('ns.x', undefined)` call that raises the sanitize error and
invokes the subscriber zero times — refuting "each single call to ... set
(k, v) whose dot-path has first segment ns invokes fn exactly once". -/
theorem claim1_counterexample :
    olookup storeNsFooBarSub.observers "ns" = some [0] ∧
    setNested storeNsFooBarSub "ns.x" .undefined =
      (storeNsFooBarSub, .error .jsonParseError) :=
  ⟨rfl, rfl⟩

/-- C1 (amended): for a registered, not-yet-unsubscribed observer id of a
namespace, every `update` call on that namespace and every `set` call
whose first path segment is that namespace that completes without raising
invokes the observer exactly once, with the namespace's full post-mutation
value (calls that raise invoke it zero times); and after
`unsubscribe(ns, id)` no sequence of further API calls ever notifies that
id again. -/
theorem claim1_fire_exactly_once (st : Store) (ns : String) (id : Nat) (ids : List Nat)
    (hobs : olookup st.observers ns = some ids) (hmem : id ∈ ids) (hnd : ids.Nodup) :
    (∀ data merge st' notifs, updateStore st ns data merge = (st', .ok notifs) →
      countId id notifs = 1 ∧ ∀ q ∈ notifs, q.2 = (olookup st'.storage ns).getD .undefined) ∧
    (∀ key value st' notifs, (jsSplit key).headD "" = ns →
      setNested st key value = (st', .ok notifs) →
      countId id notifs = 1 ∧ ∀ q ∈ notifs, q.2 = (olookup st'.storage ns).getD .undefined) ∧
    (∀ ops, (st.observers.map Prod.fst).Nodup → id < st.nextId →
      (∀ ns' ids', ns' ≠ ns → olookup st.observers ns' = some ids' → id ∉ ids') →
      countId id (runOps (unsubscribe st ns id) ops).2 = 0) := by
  refine ⟨?_, ?_, ?_⟩
  · intro data merge st' notifs heq
    rcases updateStore_shape st ns data merge with ⟨h₁, _⟩ | ⟨h₁, _⟩ | ⟨v, _, h₁, h₂⟩
    · rw [h₁] at heq
      simp at heq
    · rw [h₁] at heq
      simp at heq
    · rw [heq] at h₁ h₂
      have h₁' : st' = { st with storage := oset st.storage ns v } := h₁
      have hfire : fire { st with storage := oset st.storage ns v } ns v = .ok notifs := h₂.symm
      have hn : notifs = ids.map fun i => (i, v) := by
        simpa [fire, hobs] using hfire.symm
      subst hn
      refine ⟨countId_map_eq_one id v ids hnd hmem, ?_⟩
      intro q hq
      rcases List.mem_map.1 hq with ⟨i, _, rfl⟩
      rw [h₁']
      simp [olookup_oset_self]
  · intro key value st' notifs hhead heq
    rcases setNested_shape st key value with ⟨h₁, _⟩ | ⟨s, hs, h₁, h₂⟩
    · rw [h₁] at heq
      simp at heq
    · rw [heq] at h₁ h₂
      rw [hhead] at h₂
      have h₁' : st' = { st with storage := lodashSetTop st.storage (jsSplit key) s } := h₁
      have hfire : fire st' ns ((olookup st'.storage ns).getD .undefined) = .ok notifs := h₂.symm
      have hobs' : olookup st'.observers ns = some ids := by
        rw [h₁']
        exact hobs
      have hn : notifs = ids.map fun i => (i, (olookup st'.storage ns).getD .undefined) := by
        simpa [fire, hobs'] using hfire.symm
      subst hn
      refine ⟨countId_map_eq_one id _ ids hnd hmem, ?_⟩
      intro q hq
      rcases List.mem_map.1 hq with ⟨i, _, rfl⟩
      rfl
  · intro ops hkeys hlt hsolo
    refine absentAll_runOps _ ops id ⟨?_, hlt⟩
    intro p hp
    have hp' : p ∈ oset st.observers ns
        (((olookup st.observers ns).getD []).filter (fun i => i != id)) := hp
    rcases mem_oset_nodup _ _ _ _ hkeys hp' with rfl | ⟨hmem', hne⟩
    · intro hin
      simpa using (List.mem_filter.1 hin).2
    · obtain ⟨pk, pv⟩ := p
      exact hsolo pk pv hne (olookup_of_mem_nodup _ _ _ hkeys hmem')

/-- Witness for C1: with observer 0 subscribed to `ns`, an `update` fires
it exactly once with the full new namespace value; after unsubscribing,
a further `update` no longer notifies it. -/
theorem claim1_witness :
    (olookup storeNsFooBarSub.observers "ns" = some [0] ∧ 0 ∈ [0] ∧
      ([0] : List Nat).Nodup) ∧
    (countId 0 [(0, JSVal.obj [("foo", .str "baz")])] = 1 ∧
      ∀ q ∈ [(0, JSVal.obj [("foo", .str "baz")])],
        q.2 = (olookup (updateStore storeNsFooBarSub "ns"
          (.obj [("foo", .str "baz")]) true).1.storage "ns").getD .undefined) ∧
    countId 0 (runOps (unsubscribe storeNsFooBarSub "ns" 0)
      [.update "ns" (.obj [("foo", .str "x")]) true]).2 = 0 := by
  have h := claim1_fire_exactly_once storeNsFooBarSub "ns" 0 [0] rfl
    (by decide) (by decide)
  refine ⟨⟨rfl, by decide, by decide⟩, ?_, ?_⟩
  · exact h.1 (.obj [("foo", .str "baz")]) true _ _ rfl
  · refine h.2.2 [.update "ns" (.obj [("foo", .str "x")]) true] (by decide) (by decide) ?_
    intro ns' ids' hne hl
    rw [show storeNsFooBarSub.observers = [("ns", [0])] from rfl] at hl
    simp [olookup, Ne.symm hne] at hl

/-! ### Claim C3 — set/get round trip through sanitization -/

/-- C3: the round-trip claim is what the repository's own test asserts
(`update` then `get` with array values, ReactObservableStore.test.js lines
101-124), but the code breaks it for arrays: after `set('ns.x', ['foo'])`,
`get('ns.x')` returns the plain object `{'0': 'foo'}` — `getNested`'s
`assign({}, result)` converts the stored array into an object — not the
sanitized array. -/
theorem claim3_array_get_divergence :
    sanitizeData (.arr [.str "foo"]) = some (.arr [.str "foo"]) ∧
    (setNested storeEmptyNs "ns.x" (.arr [.str "foo"])).2 = .ok [] ∧
    resolveRaw storeArrX "ns.x" = .arr [.str "foo"] ∧
    getNested storeArrX "ns.x" = .obj [("0", .str "foo")] ∧
    JSVal.obj [("0", .str "foo")] ≠ .arr [.str "foo"] :=
  ⟨rfl, rfl, rfl, rfl, by simp⟩

/-! ### Claim C6 — re-entrant updates during a fire cycle -/

/-- C6 counterexample: in the spec's scenario, if the nested update uses
`merge = false`, the override installs a fresh namespace object, and the
outer fire loop — still holding the replaced object — delivers the stale
`{foo: 'first'}` to the external observer 1 as its last invocation, while
storage already holds `{foo: 'second'}`. -/
theorem claim6_counterexample :
    (rupdate 10 (c6Start false) "ns" (.obj [("foo", .str "first")]) true).events =
      [(0, .obj [("foo", .str "first")]), (0, .obj [("foo", .str "second")]),
       (1, .obj [("foo", .str "second")]), (1, .obj [("foo", .str "first")])] ∧
    lastDelivered 1
      (rupdate 10 (c6Start false) "ns" (.obj [("foo", .str "first")]) true).events =
      some (.obj [("foo", .str "first")]) ∧
    ((rupdate 10 (c6Start false) "ns" (.obj [("foo", .str "first")]) true).cells.getD
      ((olookup (rupdate 10 (c6Start false) "ns"
        (.obj [("foo", .str "first")]) true).rstorage "ns").getD 0) .undefined) =
      .obj [("foo", .str "second")] ∧
    JSVal.obj [("foo", .str "first")] ≠ .obj [("foo", .str "second")] :=
  ⟨rfl, rfl, rfl, by simp⟩

/-- C6 (amended): in the spec's literal scenario (nested update with the
default `merge = true`), the nested mutation's complete fire cycle runs
before the outer loop resumes — the event log shows the nested deliveries
(positions 2 and 3) preceding the outer loop's final delivery — and every
observer's last received value is `{foo: 'second'}`, because the in-place
merge keeps the outer loop's payload reference current. -/
theorem claim6_reentrant_merge_fresh :
    (rupdate 10 (c6Start true) "ns" (.obj [("foo", .str "first")]) true).events =
      [(0, .obj [("foo", .str "first")]), (0, .obj [("foo", .str "second")]),
       (1, .obj [("foo", .str "second")]), (1, .obj [("foo", .str "second")])] ∧
    lastDelivered 1
      (rupdate 10 (c6Start true) "ns" (.obj [("foo", .str "first")]) true).events =
      some (.obj [("foo", .str "second")]) ∧
    lastDelivered 0
      (rupdate 10 (c6Start true) "ns" (.obj [("foo", .str "first")]) true).events =
      some (.obj [("foo", .str "second")]) :=
  ⟨rfl, rfl, rfl⟩

/-! ### Claim C7 — the shape of `get`'s results -/

/-- C7 counterexample: `get` on an array-valued path does not return a
copy of the array: it returns a plain object keyed by the indices. -/
theorem claim7_counterexample :
    resolveRaw storeArrX "ns.x" = .arr [.str "foo"] ∧
    getNested storeArrX "ns.x" = .obj [("0", .str "foo")] ∧
    JSVal.obj [("0", .str "foo")] ≠ .arr [.str "foo"] :=
  ⟨rfl, rfl, by simp⟩

/-- C7 (amended): `get` is total (never raises); a path that resolves to
nothing yields `null`; an object value is returned as an (entry-wise
equal, shallow-copied) object; an array value is returned as a plain
object of its index properties — not an array; a scalar is returned
as-is. -/
theorem claim7_get_shape (st : Store) (key : String) :
    (resolveRaw st key = .undefined → getNested st key = .null) ∧
    (∀ kvs, (kvs.map Prod.fst).Nodup → resolveRaw st key = .obj kvs →
      getNested st key = .obj kvs) ∧
    (∀ xs, resolveRaw st key = .arr xs → ∃ es, getNested st key = .obj es) ∧
    (isObjectLike (resolveRaw st key) = false → resolveRaw st key ≠ .undefined →
      getNested st key = resolveRaw st key) := by
  refine ⟨?_, ?_, ?_, ?_⟩
  · intro h
    simp only [resolveRaw] at h
    simp [getNested, h, isObjectLike]
  · intro kvs hnd h
    simp only [resolveRaw] at h
    simp [getNested, h, isObjectLike, assignVal, toEntries, assignEntries_nil kvs hnd]
  · intro xs h
    simp only [resolveRaw] at h
    refine ⟨assignEntries [] (toEntries (.arr xs)), ?_⟩
    simp [getNested, h, isObjectLike, assignVal]
  · intro h1 h2
    cases hres : resolveRaw st key with
    | undefined => exact absurd hres h2
    | obj kvs => rw [hres] at h1; simp [isObjectLike] at h1
    | arr xs => rw [hres] at h1; simp [isObjectLike] at h1
    | fn => rw [hres] at h1; simp [isObjectLike] at h1
    | null =>
      simp only [resolveRaw] at hres
      simp [getNested, hres, isObjectLike]
    | nan =>
      simp only [resolveRaw] at hres
      simp [getNested, hres, isObjectLike]
    | infinity =>
      simp only [resolveRaw] at hres
      simp [getNested, hres, isObjectLike]
    | bool b =>
      simp only [resolveRaw] at hres
      simp [getNested, hres, isObjectLike]
    | num n =>
      simp only [resolveRaw] at hres
      simp [getNested, hres, isObjectLike]
    | str s =>
      simp only [resolveRaw] at hres
      simp [getNested, hres, isObjectLike]

/-- Witness for C7: a scalar read comes back as-is, an unresolvable path
yields `null`, and an object read comes back entry-wise equal. -/
theorem claim7_witness :
    (isObjectLike (resolveRaw storeNsX1 "ns.x") = false ∧
      resolveRaw storeNsX1 "ns.x" ≠ .undefined ∧
      getNested storeNsX1 "ns.x" = resolveRaw storeNsX1 "ns.x") ∧
    (resolveRaw storeNsX1 "ns.zz.deep" = .undefined ∧
      getNested storeNsX1 "ns.zz.deep" = .null) ∧
    getNested storeNsX1 "ns" = .obj [("x", .num 1)] := by
  have hscalar : resolveRaw storeNsX1 "ns.x" ≠ .undefined := by
    intro h
    exact JSVal.noConfusion h
  refine ⟨⟨rfl, hscalar, ?_⟩, ⟨rfl, ?_⟩, ?_⟩
  · exact (claim7_get_shape storeNsX1 "ns.x").2.2.2 rfl hscalar
  · exact (claim7_get_shape storeNsX1 "ns.zz.deep").1 rfl
  · exact (claim7_get_shape storeNsX1 "ns").2.1 [("x", .num 1)] (by simp) rfl

/-! ### Claim C8 — invariance of the top-level key set -/

/-- C8 counterexample: after `init({a: {}})`, a single
`set('b.x', 2)` creates the fresh top-level key `'b'` (lodash `set`
creates missing containers along the path, including at the top level), so
the key set is not invariant under `set`. -/
theorem claim8_counterexample :
    storageKeys storeObjA = ["a"] ∧
    storageKeys (runOps storeObjA [.set "b.x" (.num 2)]).1 = ["a", "b"] ∧
    (["a", "b"] : List String) ≠ ["a"] :=
  ⟨rfl, rfl, by simp⟩

/-- C8 (amended): the top-level key set of storage is invariant under any
sequence of `update`, `get`, `subscribe`, `unsubscribe` calls and those
`set` calls whose first path segment is an existing namespace key; a `set`
with a fresh first segment — excluded here — creates that key. -/
theorem claim8_keys_invariant (st : Store) (ops : List Op)
    (h : ∀ op ∈ ops, keySafe (storageKeys st) op = true) :
    storageKeys (runOps st ops).1 = storageKeys st := by
  induction ops generalizing st with
  | nil => rfl
  | cons op rest ih =>
    have h₁ := runOp_storageKeys st op (h op (List.mem_cons_self _ _))
    have h₂ : ∀ op' ∈ rest, keySafe (storageKeys (runOp st op).1) op' = true := by
      intro op' hop
      rw [h₁]
      exact h op' (List.mem_cons_of_mem _ hop)
    simp only [runOps]
    rw [ih _ h₂, h₁]

/-- Witness for C8: a mixed sequence of calls staying inside the declared
namespace keeps the key set `["a"]`. -/
theorem claim8_witness :
    (∀ op ∈ ([.update "a" (.obj [("y", .num 2)]) true, .set "a.x" (.num 1),
        .subscribe "a", .get "a", .unsubscribe "a" 0] : List Op),
      keySafe (storageKeys storeObjA) op = true) ∧
    storageKeys (runOps storeObjA [.update "a" (.obj [("y", .num 2)]) true,
      .set "a.x" (.num 1), .subscribe "a", .get "a", .unsubscribe "a" 0]).1 =
      storageKeys storeObjA := by
  refine ⟨?_, claim8_keys_invariant _ _ ?_⟩ <;> decide

/-! ### Claim C9 — what a second `init` does to the observer registry -/

/-- C9 counterexample: `init({a:{}})`; `subscribe('a', fn)` (id 0); a
second `init({b:{}})` that does not re-declare `'a'` — the stale observer
is NOT discarded: a later `set('a.x', 1)` still invokes it, because `init`
resets the observer sets only of the namespaces in its new data. -/
theorem claim9_counterexample :
    (subscribe storeObjA "a").2 = .ok 0 ∧
    storageKeys storeReinitB = ["b"] ∧
    (setNested storeReinitB "a.x" (.num 1)).2 = .ok [(0, .obj [("x", .num 1)])] :=
  ⟨rfl, rfl, rfl⟩

/-- C9 (amended): a successful `init` gives every namespace of the *new*
storage a fresh empty observer set, so for those namespaces — as in the
claim's scenario, where the same namespace is re-declared — observers
subscribed before the re-init are discarded and an immediate `update`
notifies nobody.  (Observers of namespaces not re-declared persist, as the
counterexample shows.) -/
theorem claim9_reinit_resets (st st' : Store) (data : JSVal) (log : Bool) (ns : String)
    (hinit : init st data log = (st', .ok ())) (hns : ns ∈ storageKeys st') :
    olookup st'.observers ns = some [] ∧
    (∀ d m st'' notifs, updateStore st' ns d m = (st'', .ok notifs) → notifs = []) := by
  by_cases htr : truthy data = false
  · rw [show init st data log = ({ st with showLog := log }, .error .invalidInit) from by
      simp [init, htr]] at hinit
    simp at hinit
  · cases hs : sanitizeData data with
    | none =>
      rw [show init st data log = ({ st with showLog := log }, .error .jsonParseError) from by
        simp [init, htr, hs]] at hinit
      simp at hinit
    | some s =>
      have hval : init st data log =
          (⟨assignEntries [] (toEntries s),
            ((assignEntries [] (toEntries s)).map Prod.fst).foldl
              (fun obs k => oset obs k []) st.observers,
            st.nextId, log⟩, .ok ()) := by
        simp [init, htr, hs]
      rw [hval] at hinit
      have hst' : st' = ⟨assignEntries [] (toEntries s),
          ((assignEntries [] (toEntries s)).map Prod.fst).foldl
            (fun obs k => oset obs k []) st.observers,
          st.nextId, log⟩ :=
        (congrArg Prod.fst hinit).symm
      subst hst'
      have hmem : ns ∈ (assignEntries [] (toEntries s)).map Prod.fst := by
        simpa [storageKeys] using hns
      have hobs : olookup (((assignEntries [] (toEntries s)).map Prod.fst).foldl
          (fun obs k => oset obs k []) st.observers) ns = some [] :=
        olookup_foldl_oset_of_mem _ _ _ _ hmem
      refine ⟨hobs, ?_⟩
      intro d m st'' notifs heq
      rcases updateStore_shape _ ns d m with ⟨h₁, _⟩ | ⟨h₁, _⟩ | ⟨v, _, h₁, h₂⟩
      · rw [h₁] at heq
        simp at heq
      · rw [h₁] at heq
        simp at heq
      · rw [heq] at h₂
        have hfire := h₂.symm
        have : notifs = ([] : List Nat).map fun i => (i, v) := by
          simpa [fire, hobs] using hfire
        simpa using this

/-- Witness for C9 at the claim's scenario: re-declaring the same
namespace resets its observer set to empty, and an immediate `update`
notifies nobody (in particular not the pre-re-init observer 0). -/
theorem claim9_witness :
    (init storeObjASub (.obj [("a", .obj [])]) false =
      ((init storeObjASub (.obj [("a", .obj [])]) false).1, .ok ()) ∧
     "a" ∈ storageKeys (init storeObjASub (.obj [("a", .obj [])]) false).1) ∧
    olookup (init storeObjASub (.obj [("a", .obj [])]) false).1.observers "a" = some [] ∧
    (updateStore (init storeObjASub (.obj [("a", .obj [])]) false).1 "a"
      (.obj [("z", .num 9)]) true).2 = .ok [] := by
  have h := claim9_reinit_resets storeObjASub
    ((init storeObjASub (.obj [("a", .obj [])]) false).1)
    (.obj [("a", .obj [])]) false "a" rfl (by decide)
  exact ⟨⟨rfl, by decide⟩, h.1, rfl⟩

end ROStore
